import Mathlib

/-!
Shallow embedding of the survey backend in `src/server.js` (Express +
Postgres).  JavaScript numbers are modelled by `JsNum`: finite values as
rationals (ℚ), plus NaN and signed infinities.  JSON values (the request
bodies and stored payloads) are modelled by `Json`.  The persistent store
(Postgres table `submissions`) is a list of rows; the UNIQUE
(survey_id, ip_hash) constraint is modelled in `insertSubmission`.
HMAC-SHA256 hashes are modelled injectively by the `IpHash` inductive
(the hash of an input is identified with the input that was hashed).
-/

/-- Model of a JavaScript number: a finite value (as an exact rational),
NaN, or a signed infinity. -/
inductive JsNum where
  | fin (q : ℚ)
  | nan
  | inf (pos : Bool)
deriving DecidableEq, Repr

/-- Model of a JSON value as delivered by `express.json()` and stored in the
JSONB `payload` column. -/
inductive Json where
  | jnull
  | jbool (b : Bool)
  | jnum (n : JsNum)
  | jstr (s : String)
  | jarr (elems : List Json)
  | jobj (entries : List (String × Json))

/-- Decimal digits of the fractional part num/den (0 ≤ num < den), up to
`fuel` digits, trailing zeros omitted once the expansion terminates. -/
def fracDigits (den : Nat) : Nat → Nat → String
  | _, 0 => ""
  | num, fuel + 1 =>
    if num = 0 then ""
    else
      let num10 := num * 10
      toString (num10 / den) ++ fracDigits den (num10 % den) fuel

/-- Decimal string of a rational, as JavaScript `String(x)` renders a finite
number: optional minus sign, integer part, and a fractional part when
nonzero (doubles always have a finite decimal expansion; 40 digits of
fuel more than covers the values this server manipulates). -/
def ratToString (q : ℚ) : String :=
  let sgn := if q < 0 then ("-") else ("")
  let n := q.num.natAbs
  let d := q.den
  if n % d = 0 then sgn ++ toString (n / d)
  else sgn ++ toString (n / d) ++ (".") ++ fracDigits d (n % d) 40

/-- JavaScript `String(x)` on a number value. -/
def jsNumToString : JsNum → String
  | .fin q => ratToString q
  | .nan => ("NaN")
  | .inf true => ("Infinity")
  | .inf false => ("-Infinity")

mutual
/-- JavaScript `String(v)` on a JSON value: `"null"` for null, `"true"` /
`"false"` for booleans, the string itself, decimal rendering for numbers,
comma-join for arrays (null elements render empty), `"[object Object]"`
for plain objects. -/
def jsToString : Json → String
  | .jnull => ("null")
  | .jbool b => if b then ("true") else ("false")
  | .jnum n => jsNumToString n
  | .jstr s => s
  | .jarr l => jsArrJoin l
  | .jobj _ => ("[object Object]")

/-- Comma-join used by `Array.prototype.toString`; a null element
contributes the empty string. -/
def jsArrJoin : List Json → String
  | [] => ""
  | [Json.jnull] => ""
  | [v] => jsToString v
  | Json.jnull :: t => (",") ++ jsArrJoin t
  | v :: t => jsToString v ++ (",") ++ jsArrJoin t
end

/-- Characters removed by JavaScript `String.prototype.trim`. -/
def trimList (cs : List Char) : List Char :=
  ((cs.dropWhile Char.isWhitespace).reverse.dropWhile Char.isWhitespace).reverse

/-- JavaScript `s.trim()`. -/
def jsTrim (s : String) : String :=
  String.mk (trimList s.data)

/-- JavaScript `s.endsWith(t)`. -/
def strEndsWith (s t : String) : Bool :=
  t.data.isSuffixOf s.data

/-- JavaScript `s.startsWith(t)`. -/
def strStartsWith (s t : String) : Bool :=
  t.data.isPrefixOf s.data

/-- Numeric value of a decimal digit character, if it is one. -/
def digitVal (c : Char) : Option Nat :=
  if 48 ≤ c.toNat ∧ c.toNat ≤ 57 then some (c.toNat - 48) else none

/-- Consume leading decimal digits: accumulated value, digit count, rest. -/
def readDigits : List Char → Nat → Nat → Nat × Nat × List Char
  | [], v, n => (v, n, [])
  | c :: cs, v, n =>
    match digitVal c with
    | some d => readDigits cs (v * 10 + d) (n + 1)
    | none => (v, n, c :: cs)

/-- Numeric value of a digit in the given radix (hex letters allowed). -/
def radixDigitVal (radix : Nat) (c : Char) : Option Nat :=
  let d :=
    if 48 ≤ c.toNat ∧ c.toNat ≤ 57 then some (c.toNat - 48)
    else if 97 ≤ c.toNat ∧ c.toNat ≤ 102 then some (c.toNat - 87)
    else if 65 ≤ c.toNat ∧ c.toNat ≤ 70 then some (c.toNat - 55)
    else none
  match d with
  | some v => if v < radix then some v else none
  | none => none

/-- Parse a whole string of digits in the given radix (at least one digit,
nothing left over), as after the `0x` / `0o` / `0b` literal markers. -/
def parseRadix (radix : Nat) : List Char → Nat → Nat → Option Nat
  | [], _, 0 => none
  | [], v, _ + 1 => some v
  | c :: cs, v, n =>
    match radixDigitVal radix c with
    | some d => parseRadix radix cs (v * radix + d) (n + 1)
    | none => none

/-- Parse the exponent tail of a decimal literal: optional sign then at
least one digit, consuming the rest of the string. -/
def parseExp (m : ℚ) (cs : List Char) : Option ℚ :=
  let (sgnNeg, cs1) :=
    match cs with
    | '+' :: t => (false, t)
    | '-' :: t => (true, t)
    | t => (false, t)
  let (e, n, rest) := readDigits cs1 0 0
  if n = 0 ∨ rest ≠ [] then none
  else if sgnNeg then some (m * ((10 : ℚ) ^ (-(e : ℤ)))) else some (m * ((10 : ℚ) ^ (e : ℕ)))

/-- Parse an unsigned decimal literal `digits [. digits] [e/E exp]` with at
least one digit in the mantissa, consuming the whole string. -/
def parseDec (cs : List Char) : Option ℚ :=
  let (ip, nInt, cs1) := readDigits cs 0 0
  let (fr, nFrac, cs2) :=
    match cs1 with
    | '.' :: t => readDigits t 0 0
    | t => (0, 0, t)
  if nInt + nFrac = 0 then none
  else
    let mant : ℚ := (ip : ℚ) + (fr : ℚ) / ((10 : ℚ) ^ nFrac)
    match cs2 with
    | [] => some mant
    | 'e' :: t => parseExp mant t
    | 'E' :: t => parseExp mant t
    | _ => none

/-- Parse an unsigned numeric literal; the string `Infinity` is a
non-finite number, modelled as `none` (the summary only asks
`Number.isFinite`). -/
def parseUnsigned (cs : List Char) : Option ℚ :=
  if cs = ("Infinity").toList then none else parseDec cs

/-- Parse an optionally signed decimal literal. -/
def parseSigned (cs : List Char) : Option ℚ :=
  match cs with
  | '+' :: t => parseUnsigned t
  | '-' :: t => (parseUnsigned t).map (fun q => -q)
  | t => parseUnsigned t

/-- JavaScript `Number(s)` on a string: `some q` when the result is the
finite number q, `none` when it is NaN or ±Infinity.  Trims whitespace;
empty (after trim) is 0; recognises `0x`/`0o`/`0b` radix literals (no
sign) and signed decimal literals with optional fraction and exponent. -/
def jsStringToNumber (s : String) : Option ℚ :=
  match trimList s.data with
  | [] => some 0
  | '0' :: c :: rest =>
    if c = 'x' ∨ c = 'X' then (parseRadix 16 rest 0 0).map (fun n => (n : ℚ))
    else if c = 'o' ∨ c = 'O' then (parseRadix 8 rest 0 0).map (fun n => (n : ℚ))
    else if c = 'b' ∨ c = 'B' then (parseRadix 2 rest 0 0).map (fun n => (n : ℚ))
    else parseSigned ('0' :: c :: rest)
  | cs => parseSigned cs

/-- JavaScript `typeof v` for a JSON value (`typeof null` is `object`). -/
def jsTypeof : Json → String
  | .jnull => ("object")
  | .jbool _ => ("boolean")
  | .jnum _ => ("number")
  | .jstr _ => ("string")
  | .jarr _ => ("object")
  | .jobj _ => ("object")

/-- Per-key loop of `validatePayload` (server.js lines 108-117): key length,
value type, serialized value length, first error wins. -/
def validateEntries : List (String × Json) → Option String
  | [] => none
  | (k, v) :: rest =>
    if k.length > 200 then some ("Invalid field name length.")
    else if ¬ (jsTypeof v = ("string") ∨ jsTypeof v = ("number") ∨ jsTypeof v = ("boolean")) then
      some ("All values must be strings, numbers, or booleans.")
    else if (jsToString v).length > 2000 then some ("Field value too long.")
    else validateEntries rest

/-- Embedding of `validatePayload` (server.js lines 102-119): `none` means
valid, `some msg` is the error message returned with HTTP 400. -/
def validatePayload : Json → Option String
  | .jobj entries =>
    if entries.length > 1000 then some ("Too many fields in payload.")
    else validateEntries entries
  | _ => some ("Payload must be an object with key/value pairs.")

/-- Association-list lookup with decidable key equality (JavaScript object
property access, insertion order preserved elsewhere). -/
def alookup {α β : Type} [DecidableEq α] : List (α × β) → α → Option β
  | [], _ => none
  | (k, v) :: t, key => if k = key then some v else alookup t key

/-- JavaScript pattern `if (!(m[k])) m[k] = d; mutate m[k] with f`: update
the entry in place when the key is present, otherwise append `(k, f d)`
(new properties go last in insertion order). -/
def upsert {α β : Type} [DecidableEq α] : List (α × β) → α → β → (β → β) → List (α × β)
  | [], key, d, f => [(key, f d)]
  | (k, v) :: t, key, d, f =>
    if k = key then (k, f v) :: t else (k, v) :: upsert t key d f

/-- Per-question accumulator of `buildSummary` (server.js lines 270-282):
response count, running sum, and the histogram object `counts`, keyed by
the contributing number itself (JavaScript keys the object by
`String(num)`, which is injective on finite numbers, so the rational is a
faithful key). -/
structure QStat where
  responses : Nat
  sum : ℚ
  counts : List (ℚ × Nat)
deriving DecidableEq, Repr

/-- Initial per-question accumulator: `{responses: 0, sum: 0, counts:
{1:0, 2:0, 3:0, 4:0, 5:0}}` (server.js lines 270-278). -/
def initQ : QStat :=
  { responses := 0, sum := 0, counts := [(1, 0), (2, 0), (3, 0), (4, 0), (5, 0)] }

/-- Count stored in a histogram bucket; an absent bucket reads as 0
(JavaScript `q.counts[num] || 0`). -/
def countsGet (l : List (ℚ × Nat)) (key : ℚ) : Nat :=
  (alookup l key).getD 0

/-- Total of all histogram buckets. -/
def countsTotal (l : List (ℚ × Nat)) : Nat :=
  (l.map Prod.snd).sum

/-- JavaScript `q.counts[num] = (q.counts[num] || 0) + 1` (server.js line
282): increment the bucket, creating it at the end when absent. -/
def countsIncr : List (ℚ × Nat) → ℚ → List (ℚ × Nat)
  | [], key => [(key, 1)]
  | (k, n) :: t, key =>
    if k = key then (k, n + 1) :: t else (k, n) :: countsIncr t key

/-- Effect of one contributing scale answer with value `num` on a question
accumulator (server.js lines 280-282). -/
def qIncr (num : ℚ) (q : QStat) : QStat :=
  { responses := q.responses + 1, sum := q.sum + num, counts := countsIncr q.counts num }

/-- Per-free-text-question accumulator of `buildSummary` (server.js lines
251-262): response count and the single `All / N/A` bucket of
`byBuilding`. -/
structure FreeStat where
  responses : Nat
  allNA : List String
deriving DecidableEq, Repr

/-- Initial free-text accumulator: `{responses: 0, byBuilding: {'All / N/A': []}}`. -/
def initFT : FreeStat :=
  { responses := 0, allNA := [] }

/-- Effect of one non-empty free-text answer (server.js lines 261-262). -/
def ftIncr (txt : String) (f : FreeStat) : FreeStat :=
  { responses := f.responses + 1, allNA := f.allNA ++ [txt] }

/-- The two accumulator maps of `buildSummary`, in insertion order. -/
structure Agg where
  questions : List (String × QStat)
  freeText : List (String × FreeStat)
deriving DecidableEq, Repr

/-- JavaScript `const val = rawVal == null ? '' : String(rawVal).trim()`
(server.js line 246). -/
def entryVal : Json → String
  | .jnull => ""
  | v => jsTrim (jsToString v)

/-- JavaScript `Number(val)` on the trimmed string of a stored value, as
`some q` for a finite result and `none` for NaN/±Infinity.  For a finite
number value the `String`/`Number` round trip is the identity, so the
rational is returned directly. -/
def entryNum : Json → Option ℚ
  | .jnum (.fin q) => some q
  | .jnum _ => none
  | v => jsStringToNumber (entryVal v)

/-- Loop body of `buildSummary` for one payload entry (server.js lines
245-283): free-text keys collect trimmed non-empty text into the
`All / N/A` bucket; other keys contribute to the scale histogram exactly
when the coerced number is finite and in [1,5]. -/
def processEntry (acc : Agg) (key : String) (rawVal : Json) : Agg :=
  let val := entryVal rawVal
  if strEndsWith key ("_free") then
    if val = "" then acc
    else { acc with freeText := upsert acc.freeText key initFT (ftIncr val) }
  else
    match entryNum rawVal with
    | none => acc
    | some num =>
      if num < 1 ∨ 5 < num then acc
      else { acc with questions := upsert acc.questions key initQ (qIncr num) }

/-- Inner loop of `buildSummary` over `Object.entries(payload)`. -/
def processPayload (acc : Agg) (payload : List (String × Json)) : Agg :=
  payload.foldl (fun a kv => processEntry a kv.1 kv.2) acc

/-- Model of the HMAC-SHA256 hex digest computed by `makeIpHash`: the hash
is identified with the data that was hashed (HMAC is collision-free in
the model), so the deterministic per-IP digest and the randomized
per-request digest (keyed by `Date.now()` and eight random bytes,
modelled together as `nonce`) are distinct constructors. -/
inductive IpHash where
  | det (base : String)
  | rand (base : String) (nonce : Nat)
deriving DecidableEq, Repr

/-- Embedding of `makeIpHash` (server.js lines 88-100): whitelisted clients
get a fresh per-request digest over `base:Date.now():randomBytes`,
everyone else the deterministic digest of `ip || 'unknown_ip'`. -/
def makeIpHash (ip : String) (allowMultiple : Bool) (nonce : Nat) : IpHash :=
  let base := if ip = "" then ("unknown_ip") else ip
  if allowMultiple then .rand base nonce else .det base

/-- Embedding of `isIpWhitelisted` (server.js lines 83-86). -/
def isIpWhitelisted (prefixes : List String) (ip : String) : Bool :=
  if ip = "" ∨ prefixes = [] then false
  else prefixes.any (fun p => strStartsWith ip p)

/-- Row of the `submissions` table (id and timestamp omitted; no claim
mentions them). -/
structure Submission where
  survey_id : String
  ip_hash : IpHash
  payload : List (String × Json)

/-- Persistent state: whether `ensureSchema` has created the table, and the
stored rows in insertion order. -/
structure ServerState where
  schema : Bool
  subs : List Submission

/-- Server configuration read from the environment. -/
structure Config where
  surveyId : String
  whitelistPrefixes : List String
  appsScriptUrl : String

/-- Responses of `POST /submit`: 200 `{ok:true}`, 400 `invalid_payload`,
403 `duplicate_ip`, 500 `server_error`. -/
inductive SubmitResult where
  | ok
  | invalidPayload (msg : String)
  | duplicateIp
  | serverError
deriving DecidableEq, Repr

/-- Outcome of the fire-and-forget `fetch` to the Apps Script webhook. -/
inductive WebhookOutcome where
  | success (text : String)
  | httpError (status : Nat) (text : String)
  | failure (msg : String)
deriving DecidableEq, Repr

/-- Console line produced by the webhook forwarding handlers (server.js
lines 176-187); nothing is emitted when no webhook URL is configured. -/
def webhookLog (url : String) (w : WebhookOutcome) : List String :=
  if url = "" then []
  else
    match w with
    | .success t => [("Apps Script success response: ") ++ t]
    | .httpError s t => [("Apps Script HTTP error: ") ++ toString s ++ (" ") ++ t]
    | .failure m => [("Apps Script forward failed: ") ++ m]

/-- INSERT into `submissions` under the UNIQUE (survey_id, ip_hash)
constraint: Postgres error 23505 when a row with the same pair exists,
otherwise the row is appended. -/
def insertSubmission (st : ServerState) (sub : Submission) : Except Unit ServerState :=
  if st.subs.any (fun s => s.survey_id = sub.survey_id ∧ s.ip_hash = sub.ip_hash) then
    .error ()
  else .ok { st with subs := st.subs ++ [sub] }

/-- Entries of a request body known to be a JSON object. -/
def bodyEntries : Json → List (String × Json)
  | .jobj es => es
  | _ => []

/-- Embedding of the `POST /submit` handler (server.js lines 144-203):
validate, ensure schema, insert (23505 becomes 403 duplicate_ip), then
fire-and-forget the webhook whose outcome only reaches the console log.
Returns (response, new state, log lines). -/
def submit (cfg : Config) (st : ServerState) (ip : String) (nonce : Nat)
    (body : Json) (w : WebhookOutcome) : SubmitResult × ServerState × List String :=
  let whitelisted := isIpWhitelisted cfg.whitelistPrefixes ip
  let hash := makeIpHash ip whitelisted nonce
  match validatePayload body with
  | some msg => (.invalidPayload msg, st, [])
  | none =>
    let st1 : ServerState := { st with schema := true }
    match insertSubmission st1 { survey_id := cfg.surveyId, ip_hash := hash, payload := bodyEntries body } with
    | .error _ => (.duplicateIp, st1, [])
    | .ok st2 => (.ok, st2, webhookLog cfg.appsScriptUrl w)

/-- Success path of `GET /admin/reset` (server.js lines 218-219):
`ensureSchema` then `TRUNCATE TABLE submissions` — every row of every
survey is deleted. -/
def resetRun (_st : ServerState) : ServerState :=
  { schema := true, subs := [] }

/-- Finished per-question summary entry: the accumulator plus the computed
`average` field (`q.average = q.responses ? q.sum / q.responses : null`,
server.js lines 287-289). -/
structure QStatOut extends QStat where
  average : Option ℚ
deriving DecidableEq, Repr

/-- Average pass of `buildSummary` over one accumulator. -/
def finishQ (q : QStat) : QStatOut :=
  { q with average := if q.responses ≠ 0 then some (q.sum / (q.responses : ℚ)) else none }

/-- Value returned by `buildSummary` (server.js lines 291-296). -/
structure Summary where
  surveyId : String
  totalSubmissions : Nat
  questions : List (String × QStatOut)
  freeText : List (String × FreeStat)
deriving DecidableEq, Repr

/-- Pure core of `buildSummary` (server.js lines 231-297): select the rows
of the configured survey, fold every payload entry into the accumulators,
then attach averages. -/
def buildSummary (sid : String) (subs : List Submission) : Summary :=
  let rows := subs.filter (fun s => s.survey_id = sid)
  let agg := rows.foldl (fun a r => processPayload a r.payload) { questions := [], freeText := [] }
  { surveyId := sid
    totalSubmissions := rows.length
    questions := agg.questions.map (fun kv => (kv.1, finishQ kv.2))
    freeText := agg.freeText }

/-- State effect of a summary request: `buildSummary` runs `ensureSchema`
(idempotent DDL) and a SELECT; the rows are untouched. -/
def buildSummaryRun (sid : String) (st : ServerState) : Summary × ServerState :=
  (buildSummary sid st.subs, { st with schema := true })

/-- Question accumulator visible under a key, defaulting to the freshly
initialized accumulator when the key is absent. -/
def qstatOf (acc : Agg) (k : String) : QStat :=
  (alookup acc.questions k).getD initQ

/-- Free-text accumulator visible under a key, defaulting to the freshly
initialized accumulator when the key is absent. -/
def ftOf (acc : Agg) (k : String) : FreeStat :=
  (alookup acc.freeText k).getD initFT

/-- Invariant carried by every question accumulator the scan ever stores:
at least one response, histogram total equal to the response count, and
the running sum between `responses` and `5 * responses`. -/
def QInv (qs : QStat) : Prop :=
  1 ≤ qs.responses ∧ countsTotal qs.counts = qs.responses ∧
    (qs.responses : ℚ) ≤ qs.sum ∧ qs.sum ≤ 5 * (qs.responses : ℚ)

/-- Invariant of the whole questions map. -/
def AggInv (acc : Agg) : Prop :=
  ∀ p ∈ acc.questions, QInv p.2

/-- Acceptance condition of the spec, stated independently of the
validation code: a flat JSON object of at most 1000 keys, each key at
most 200 characters, each value a string, number or boolean whose
serialization is at most 2000 characters. -/
def PayloadAccepted (p : Json) : Prop :=
  ∃ es, p = Json.jobj es ∧ es.length ≤ 1000 ∧
    ∀ kv ∈ es, kv.1.length ≤ 200 ∧
      (jsTypeof kv.2 = ("string") ∨ jsTypeof kv.2 = ("number") ∨ jsTypeof kv.2 = ("boolean")) ∧
      (jsToString kv.2).length ≤ 2000

/-- Accumulator state after the full scan of `buildSummary`, before the
average pass. -/
def summaryAgg (sid : String) (subs : List Submission) : Agg :=
  (subs.filter (fun s => s.survey_id = sid)).foldl (fun a r => processPayload a r.payload)
    { questions := [], freeText := [] }

theorem alookup_upsert_self {α β : Type} [DecidableEq α] (l : List (α × β)) (k : α) (d : β) (f : β → β) :
    alookup (upsert l k d f) k = some (f ((alookup l k).getD d)) := by
  induction l with
  | nil => simp [alookup, upsert]
  | cons hd tl ih =>
    obtain ⟨k', v⟩ := hd
    by_cases hkk : k' = k
    · subst hkk
      simp [alookup, upsert]
    · simp [alookup, upsert, hkk, ih]

theorem alookup_upsert_other {α β : Type} [DecidableEq α] (l : List (α × β)) (k k' : α) (d : β) (f : β → β)
    (h : k' ≠ k) : alookup (upsert l k d f) k' = alookup l k' := by
  induction l with
  | nil => simp [alookup, upsert, Ne.symm h]
  | cons hd tl ih =>
    obtain ⟨ka, v⟩ := hd
    by_cases hkk : ka = k
    · subst hkk
      simp [alookup, upsert, Ne.symm h]
    · simp [alookup, upsert, hkk, ih]

theorem upsert_forall {α β : Type} [DecidableEq α] (P : β → Prop) (l : List (α × β)) (k : α) (d : β) (f : β → β)
    (hl : ∀ p ∈ l, P p.2) (hf : ∀ x, P x → P (f x)) (hd : P (f d)) :
    ∀ p ∈ upsert l k d f, P p.2 := by
  induction l with
  | nil =>
    intro p hp
    simp [upsert] at hp
    simp [hp, hd]
  | cons hd' tl ih =>
    obtain ⟨ka, v⟩ := hd'
    by_cases hkk : ka = k
    · subst hkk
      intro p hp
      simp [upsert] at hp
      rcases hp with hp | hp
      · subst hp
        exact hf v (hl (ka, v) (by simp))
      · exact hl p (by simp [hp])
    · intro p hp
      simp [upsert, hkk] at hp
      rcases hp with hp | hp
      · subst hp
        exact hl (ka, v) (by simp)
      · exact ih (fun p hp => hl p (by simp [hp])) p hp

theorem countsGet_countsIncr_self (l : List (ℚ × Nat)) (q : ℚ) :
    countsGet (countsIncr l q) q = countsGet l q + 1 := by
  induction l with
  | nil => simp [countsGet, countsIncr, alookup]
  | cons hd tl ih =>
    obtain ⟨k, n⟩ := hd
    by_cases hkq : k = q
    · subst hkq
      simp [countsGet, countsIncr, alookup]
    · simp [countsGet, countsIncr, alookup, hkq] at ih ⊢
      exact ih

theorem countsGet_countsIncr_other (l : List (ℚ × Nat)) (q b : ℚ) (h : b ≠ q) :
    countsGet (countsIncr l q) b = countsGet l b := by
  induction l with
  | nil => simp [countsGet, countsIncr, alookup, Ne.symm h]
  | cons hd tl ih =>
    obtain ⟨k, n⟩ := hd
    by_cases hkq : k = q
    · subst hkq
      simp [countsGet, countsIncr, alookup, Ne.symm h]
    · by_cases hkb : k = b
      · subst hkb
        simp [countsGet, countsIncr, alookup, hkq]
      · simp [countsGet, countsIncr, alookup, hkq, hkb] at ih ⊢
        exact ih

theorem countsTotal_countsIncr (l : List (ℚ × Nat)) (q : ℚ) :
    countsTotal (countsIncr l q) = countsTotal l + 1 := by
  induction l with
  | nil => simp [countsTotal, countsIncr]
  | cons hd tl ih =>
    obtain ⟨k, n⟩ := hd
    by_cases hkq : k = q
    · subst hkq
      simp [countsTotal, countsIncr]
      omega
    · simp [countsTotal, countsIncr, hkq] at ih ⊢
      omega

theorem alookup_map {α β γ : Type} [DecidableEq α] (f : β → γ) (l : List (α × β)) (k : α) :
    alookup (l.map (fun p => (p.1, f p.2))) k = (alookup l k).map f := by
  induction l with
  | nil => simp [alookup]
  | cons hd tl ih =>
    obtain ⟨ka, v⟩ := hd
    by_cases hkk : ka = k
    · subst hkk
      simp [alookup]
    · simp [alookup, hkk, ih]

theorem foldl_preserve {α σ : Type} (P : σ → Prop) (f : σ → α → σ)
    (h : ∀ s a, P s → P (f s a)) :
    ∀ (l : List α) (s : σ), P s → P (l.foldl f s) := by
  intro l
  induction l with
  | nil => intro s hs; simpa using hs
  | cons hd tl ih =>
    intro s hs
    simpa using ih (f s hd) (h s hd hs)

theorem processEntry_free_empty (acc : Agg) (k : String) (v : Json)
    (hk : strEndsWith k ("_free") = true) (hv : entryVal v = "") :
    processEntry acc k v = acc := by
  simp [processEntry, hk, hv]

theorem processEntry_free_text (acc : Agg) (k : String) (v : Json)
    (hk : strEndsWith k ("_free") = true) (hv : entryVal v ≠ "") :
    processEntry acc k v = { acc with freeText := upsert acc.freeText k initFT (ftIncr (entryVal v)) } := by
  simp [processEntry, hk, hv]

theorem processEntry_skip_none (acc : Agg) (k : String) (v : Json)
    (hk : strEndsWith k ("_free") = false) (hv : entryNum v = none) :
    processEntry acc k v = acc := by
  simp [processEntry, hk, hv]

theorem processEntry_skip_range (acc : Agg) (k : String) (v : Json) (q : ℚ)
    (hk : strEndsWith k ("_free") = false) (hv : entryNum v = some q)
    (hq : q < 1 ∨ 5 < q) :
    processEntry acc k v = acc := by
  simp [processEntry, hk, hv, hq]

theorem processEntry_contrib (acc : Agg) (k : String) (v : Json) (q : ℚ)
    (hk : strEndsWith k ("_free") = false) (hv : entryNum v = some q)
    (h1 : 1 ≤ q) (h5 : q ≤ 5) :
    processEntry acc k v = { acc with questions := upsert acc.questions k initQ (qIncr q) } := by
  have hq : ¬ (q < 1 ∨ 5 < q) := by
    push_neg
    exact ⟨h1, h5⟩
  simp [processEntry, hk, hv, hq]

theorem alookup_mem {α β : Type} [DecidableEq α] (l : List (α × β)) (k : α) (v : β)
    (h : alookup l k = some v) : (k, v) ∈ l := by
  induction l with
  | nil => simp [alookup] at h
  | cons hd tl ih =>
    obtain ⟨ka, va⟩ := hd
    by_cases hkk : ka = k
    · subst hkk
      simp [alookup] at h
      simp [h]
    · simp [alookup, hkk] at h
      simp [ih h]

theorem qIncr_QInv (q : ℚ) (h1 : 1 ≤ q) (h5 : q ≤ 5) (x : QStat) (hx : QInv x) :
    QInv (qIncr q x) := by
  obtain ⟨hr, hc, hs1, hs2⟩ := hx
  refine ⟨by simp only [qIncr]; omega, ?_, ?_, ?_⟩
  · simp [qIncr, countsTotal_countsIncr, hc]
  · simp only [qIncr]
    push_cast
    linarith
  · simp only [qIncr]
    push_cast
    linarith

theorem qIncr_initQ_QInv (q : ℚ) (h1 : 1 ≤ q) (h5 : q ≤ 5) : QInv (qIncr q initQ) := by
  refine ⟨by simp [qIncr, initQ], ?_, ?_, ?_⟩
  · simp only [qIncr, initQ]
    rw [countsTotal_countsIncr]
    norm_num [countsTotal]
  · simp [qIncr, initQ]
    linarith
  · simp [qIncr, initQ]
    linarith

theorem processEntry_AggInv (acc : Agg) (k : String) (v : Json) (h : AggInv acc) :
    AggInv (processEntry acc k v) := by
  by_cases hk : strEndsWith k ("_free") = true
  · by_cases hv : entryVal v = ""
    · rw [processEntry_free_empty acc k v hk hv]
      exact h
    · rw [processEntry_free_text acc k v hk hv]
      exact h
  · have hk' : strEndsWith k ("_free") = false := by
      cases hfb : strEndsWith k ("_free") with
      | false => rfl
      | true => exact absurd hfb hk
    cases hv : entryNum v with
    | none =>
      rw [processEntry_skip_none acc k v hk' hv]
      exact h
    | some q =>
      by_cases hq : q < 1 ∨ 5 < q
      · rw [processEntry_skip_range acc k v q hk' hv hq]
        exact h
      · push_neg at hq
        rw [processEntry_contrib acc k v q hk' hv hq.1 hq.2]
        intro p hp
        exact upsert_forall QInv acc.questions k initQ (qIncr q) h
          (fun x hx => qIncr_QInv q hq.1 hq.2 x hx) (qIncr_initQ_QInv q hq.1 hq.2) p hp

theorem processPayload_AggInv (acc : Agg) (payload : List (String × Json)) (h : AggInv acc) :
    AggInv (processPayload acc payload) := by
  exact foldl_preserve AggInv (fun a kv => processEntry a kv.1 kv.2)
    (fun s (a : String × Json) hs => processEntry_AggInv s a.1 a.2 hs) payload acc h

theorem summaryAgg_AggInv (sid : String) (subs : List Submission) :
    AggInv (summaryAgg sid subs) := by
  refine foldl_preserve AggInv (fun a r => processPayload a r.payload)
    (fun s (a : Submission) hs => processPayload_AggInv s a.payload hs) _ _ ?_
  intro p hp
  exact absurd hp (List.not_mem_nil p)

theorem buildSummary_questions_eq (sid : String) (subs : List Submission) :
    (buildSummary sid subs).questions
      = (summaryAgg sid subs).questions.map (fun kv => (kv.1, finishQ kv.2)) := rfl

theorem summary_lookup_inv (sid : String) (subs : List Submission) (k : String) (qs : QStatOut)
    (h : alookup (buildSummary sid subs).questions k = some qs) :
    ∃ q0 : QStat, QInv q0 ∧ qs = finishQ q0 := by
  rw [buildSummary_questions_eq, alookup_map] at h
  cases h0 : alookup (summaryAgg sid subs).questions k with
  | none =>
    rw [h0] at h
    simp at h
  | some q0 =>
    rw [h0] at h
    simp at h
    exact ⟨q0, summaryAgg_AggInv sid subs (k, q0) (alookup_mem _ _ _ h0), h.symm⟩

theorem insertSubmission_not_dup (st : ServerState) (sub : Submission)
    (h : ∀ s ∈ st.subs, ¬ (s.survey_id = sub.survey_id ∧ s.ip_hash = sub.ip_hash)) :
    insertSubmission st sub = .ok { st with subs := st.subs ++ [sub] } := by
  unfold insertSubmission
  rw [if_neg]
  simp only [List.any_eq_true, decide_eq_true_eq, not_exists]
  intro s hmem
  exact h s hmem.1 hmem.2

theorem insertSubmission_dup (st : ServerState) (sub : Submission) (s0 : Submission)
    (hs0 : s0 ∈ st.subs) (h : s0.survey_id = sub.survey_id ∧ s0.ip_hash = sub.ip_hash) :
    insertSubmission st sub = .error () := by
  unfold insertSubmission
  rw [if_pos]
  simp only [List.any_eq_true, decide_eq_true_eq]
  exact ⟨s0, hs0, h⟩

theorem submit_webhook_indep (cfg : Config) (st : ServerState) (ip : String) (n : Nat)
    (b : Json) (w w' : WebhookOutcome) :
    (submit cfg st ip n b w).1 = (submit cfg st ip n b w').1 ∧
      (submit cfg st ip n b w).2.1 = (submit cfg st ip n b w').2.1 := by
  cases hv : validatePayload b with
  | some msg => simp [submit, hv]
  | none =>
    cases hi : insertSubmission { st with schema := true }
        { survey_id := cfg.surveyId,
          ip_hash := makeIpHash ip (isIpWhitelisted cfg.whitelistPrefixes ip) n,
          payload := bodyEntries b } with
    | error e => simp [submit, hv, hi]
    | ok st2 => simp [submit, hv, hi]

theorem submit_ok_state (cfg : Config) (st : ServerState) (ip : String) (n : Nat)
    (b : Json) (w : WebhookOutcome) (h : (submit cfg st ip n b w).1 = SubmitResult.ok) :
    validatePayload b = none ∧
      (submit cfg st ip n b w).2.1.subs
        = st.subs ++ [{ survey_id := cfg.surveyId,
                        ip_hash := makeIpHash ip (isIpWhitelisted cfg.whitelistPrefixes ip) n,
                        payload := bodyEntries b }] := by
  cases hv : validatePayload b with
  | some msg => simp [submit, hv] at h
  | none =>
    cases hi : insertSubmission { st with schema := true }
        { survey_id := cfg.surveyId,
          ip_hash := makeIpHash ip (isIpWhitelisted cfg.whitelistPrefixes ip) n,
          payload := bodyEntries b } with
    | error e => simp [submit, hv, hi] at h
    | ok st2 =>
      refine ⟨rfl, ?_⟩
      simp only [submit, hv, hi]
      unfold insertSubmission at hi
      by_cases hany : ({ st with schema := true } : ServerState).subs.any
          (fun s => decide (s.survey_id = cfg.surveyId ∧
            s.ip_hash = makeIpHash ip (isIpWhitelisted cfg.whitelistPrefixes ip) n)) = true
      · rw [if_pos hany] at hi
        exact absurd hi (by simp)
      · rw [if_neg hany] at hi
        cases hi
        rfl

/-- C1: for a key that does not end in the free-text marker, the loop body
of `buildSummary` adds exactly one to the key's response count, adds the
coerced value to its sum, and adds exactly one to exactly one histogram
bucket when `String(v)` coerces to a finite number in [1,5], leaving every
other question and all free text untouched; otherwise (NaN, infinite or
out of range) it changes nothing, and in either case the pass is a total
function that cannot fail. -/
theorem claim1_scale_contribution (acc : Agg) (k : String) (v : Json)
    (hk : strEndsWith k ("_free") = false) :
    (∀ q : ℚ, entryNum v = some q → 1 ≤ q → q ≤ 5 →
      (qstatOf (processEntry acc k v) k).responses = (qstatOf acc k).responses + 1 ∧
        (qstatOf (processEntry acc k v) k).sum = (qstatOf acc k).sum + q ∧
        (∃ b : ℚ, countsGet (qstatOf (processEntry acc k v) k).counts b
              = countsGet (qstatOf acc k).counts b + 1 ∧
            ∀ b' : ℚ, b' ≠ b → countsGet (qstatOf (processEntry acc k v) k).counts b'
              = countsGet (qstatOf acc k).counts b') ∧
        (∀ k' : String, k' ≠ k →
          alookup (processEntry acc k v).questions k' = alookup acc.questions k') ∧
        (processEntry acc k v).freeText = acc.freeText) ∧
      ((entryNum v = none ∨ ∃ q : ℚ, entryNum v = some q ∧ (q < 1 ∨ 5 < q)) →
        processEntry acc k v = acc) := by
  constructor
  · intro q hv h1 h5
    rw [processEntry_contrib acc k v q hk hv h1 h5]
    have hq : qstatOf { acc with questions := upsert acc.questions k initQ (qIncr q) } k
        = qIncr q (qstatOf acc k) := by
      simp [qstatOf, alookup_upsert_self]
    refine ⟨by rw [hq]; rfl, by rw [hq]; rfl, ?_, ?_, rfl⟩
    · refine ⟨q, ?_, ?_⟩
      · rw [hq]
        simp [qIncr, countsGet_countsIncr_self]
      · intro b' hb'
        rw [hq]
        simp [qIncr, countsGet_countsIncr_other _ _ _ hb']
    · intro k' hk'
      simp [alookup_upsert_other _ _ _ _ _ hk']
  · intro hcase
    rcases hcase with hv | ⟨q, hv, hq⟩
    · exact processEntry_skip_none acc k v hk hv
    · exact processEntry_skip_range acc k v q hk hv hq

/-- Witness for C1: the contributing branch at key `safety_child_safe` with
the number 4 on an empty accumulator. -/
theorem claim1_scale_contribution_witness :
    strEndsWith ("safety_child_safe") ("_free") = false ∧
      entryNum (Json.jnum (JsNum.fin 4)) = some 4 ∧ (1 : ℚ) ≤ 4 ∧ (4 : ℚ) ≤ 5 ∧
      (qstatOf (processEntry ⟨[], []⟩ ("safety_child_safe") (Json.jnum (JsNum.fin 4)))
          ("safety_child_safe")).responses
        = (qstatOf ⟨[], []⟩ ("safety_child_safe")).responses + 1 :=
  ⟨by decide, rfl, by norm_num, by norm_num,
    ((claim1_scale_contribution ⟨[], []⟩ ("safety_child_safe") (Json.jnum (JsNum.fin 4))
        (by decide)).1 4 rfl (by norm_num) (by norm_num)).1⟩

/-- C2 counterexample: the number 2.5 is a contributing scale answer
(finite, within [1,5]), yet `buildSummary` increments the fractional
histogram bucket keyed 2.5 and leaves every integer bucket 1-5 at zero —
no rounding or truncation to an integer bucket happens. -/
theorem claim2_rounding_cex :
    entryNum (Json.jnum (JsNum.fin (5/2))) = some (5/2) ∧
      (1 : ℚ) ≤ 5/2 ∧ (5/2 : ℚ) ≤ 5 ∧
      buildSummary ("s") [⟨("s"), .det ("i"), [(("q"), Json.jnum (JsNum.fin (5/2)))]⟩]
        = ⟨("s"), 1, [(("q"), ⟨⟨1, 5/2, [(1,0),(2,0),(3,0),(4,0),(5,0),(5/2,1)]⟩, some (5/2)⟩)], []⟩ ∧
      countsGet [((1:ℚ),0),(2,0),(3,0),(4,0),(5,0),(5/2,1)] (5/2) = 1 ∧
      countsGet [((1:ℚ),0),(2,0),(3,0),(4,0),(5,0),(5/2,1)] 1 = 0 ∧
      countsGet [((1:ℚ),0),(2,0),(3,0),(4,0),(5,0),(5/2,1)] 2 = 0 ∧
      countsGet [((1:ℚ),0),(2,0),(3,0),(4,0),(5,0),(5/2,1)] 3 = 0 ∧
      countsGet [((1:ℚ),0),(2,0),(3,0),(4,0),(5,0),(5/2,1)] 4 = 0 ∧
      countsGet [((1:ℚ),0),(2,0),(3,0),(4,0),(5,0),(5/2,1)] 5 = 0 := by
  with_unfolding_all decide

/-- C2 (amended): for every contributing scale answer the histogram bucket
incremented is the one keyed by the answer's numeric value itself — an
integer 1-5 for integer answers, a fractional key (such as 2.5) for
non-integer in-range answers; no other bucket changes. -/
theorem claim2_bucket_is_value (acc : Agg) (k : String) (v : Json) (q : ℚ)
    (hk : strEndsWith k ("_free") = false) (hv : entryNum v = some q)
    (h1 : 1 ≤ q) (h5 : q ≤ 5) :
    countsGet (qstatOf (processEntry acc k v) k).counts q
        = countsGet (qstatOf acc k).counts q + 1 ∧
      ∀ b : ℚ, b ≠ q → countsGet (qstatOf (processEntry acc k v) k).counts b
        = countsGet (qstatOf acc k).counts b := by
  rw [processEntry_contrib acc k v q hk hv h1 h5]
  have hq : qstatOf { acc with questions := upsert acc.questions k initQ (qIncr q) } k
      = qIncr q (qstatOf acc k) := by
    simp [qstatOf, alookup_upsert_self]
  constructor
  · rw [hq]
    simp [qIncr, countsGet_countsIncr_self]
  · intro b hb
    rw [hq]
    simp [qIncr, countsGet_countsIncr_other _ _ _ hb]

/-- Witness for the amended C2: the answer 2.5 increments exactly the
bucket keyed 2.5. -/
theorem claim2_bucket_is_value_witness :
    strEndsWith ("q") ("_free") = false ∧
      entryNum (Json.jnum (JsNum.fin (5/2))) = some (5/2) ∧
      (1 : ℚ) ≤ 5/2 ∧ (5/2 : ℚ) ≤ 5 ∧
      countsGet (qstatOf (processEntry ⟨[], []⟩ ("q") (Json.jnum (JsNum.fin (5/2)))) ("q")).counts (5/2)
        = countsGet (qstatOf ⟨[], []⟩ ("q")).counts (5/2) + 1 :=
  ⟨by decide, rfl, by norm_num, by norm_num,
    (claim2_bucket_is_value ⟨[], []⟩ ("q") (Json.jnum (JsNum.fin (5/2))) (5/2)
        (by decide) rfl (by norm_num) (by norm_num)).1⟩

/-- C3: every question entry present in a summary has a nonzero response
count and its `average` equals `sum / responses`; the average computation
applied to a zero-response accumulator yields null (`none`) — never NaN
(no such value exists in the model) and never 0. -/
theorem claim3_average (sid : String) (subs : List Submission) (k : String) (qs : QStatOut)
    (h : alookup (buildSummary sid subs).questions k = some qs) :
    qs.responses ≠ 0 ∧ qs.average = some (qs.sum / (qs.responses : ℚ)) ∧
      (∀ q0 : QStat, q0.responses = 0 → (finishQ q0).average = none) := by
  obtain ⟨q0, hinv, rfl⟩ := summary_lookup_inv sid subs k qs h
  obtain ⟨hr, -, -, -⟩ := hinv
  have hne : q0.responses ≠ 0 := by omega
  refine ⟨hne, ?_, ?_⟩
  · simp [finishQ, hne]
  · intro q1 h1
    simp [finishQ, h1]

/-- Witness for C3: the summary of a single submission answering 4. -/
theorem claim3_average_witness :
    ((⟨⟨1, 4, [(1,0),(2,0),(3,0),(4,1),(5,0)]⟩, some 4⟩ : QStatOut).responses ≠ 0) ∧
      (⟨⟨1, 4, [(1,0),(2,0),(3,0),(4,1),(5,0)]⟩, some 4⟩ : QStatOut).average
        = some ((⟨⟨1, 4, [(1,0),(2,0),(3,0),(4,1),(5,0)]⟩, some 4⟩ : QStatOut).sum
            / ((⟨⟨1, 4, [(1,0),(2,0),(3,0),(4,1),(5,0)]⟩, some 4⟩ : QStatOut).responses : ℚ)) :=
  let h := claim3_average ("s") [⟨("s"), .det ("i"), [(("q"), Json.jnum (JsNum.fin 4))]⟩] ("q")
    ⟨⟨1, 4, [(1,0),(2,0),(3,0),(4,1),(5,0)]⟩, some 4⟩ (by with_unfolding_all decide)
  ⟨h.1, h.2.1⟩

/-- C5: performing a reset (TRUNCATE of the submissions table) and then a
summary yields totalSubmissions = 0 and empty questions and freeText
mappings. -/
theorem claim5_reset_then_summary (sid : String) (st : ServerState) :
    (buildSummary sid (resetRun st).subs).totalSubmissions = 0 ∧
      (buildSummary sid (resetRun st).subs).questions = [] ∧
      (buildSummary sid (resetRun st).subs).freeText = [] :=
  ⟨rfl, rfl, rfl⟩

/-- C6: for a key ending in the free-text marker, the loop body of
`buildSummary` appends the trimmed text to the key's `All / N/A` bucket
(the `allNA` field) and bumps its response count exactly when the trimmed
text is non-empty; an empty-after-trim value changes nothing; other
free-text keys are untouched; and a free-text key never contributes to
the numeric questions mapping. -/
theorem claim6_free_text (acc : Agg) (k : String) (v : Json)
    (hk : strEndsWith k ("_free") = true) :
    (entryVal v ≠ "" →
      (ftOf (processEntry acc k v) k).responses = (ftOf acc k).responses + 1 ∧
        (ftOf (processEntry acc k v) k).allNA = (ftOf acc k).allNA ++ [entryVal v] ∧
        (∀ k' : String, k' ≠ k →
          alookup (processEntry acc k v).freeText k' = alookup acc.freeText k')) ∧
      (entryVal v = "" → processEntry acc k v = acc) ∧
      (processEntry acc k v).questions = acc.questions := by
  refine ⟨?_, ?_, ?_⟩
  · intro hv
    rw [processEntry_free_text acc k v hk hv]
    have hq : ftOf { acc with freeText := upsert acc.freeText k initFT (ftIncr (entryVal v)) } k
        = ftIncr (entryVal v) (ftOf acc k) := by
      simp [ftOf, alookup_upsert_self]
    refine ⟨by rw [hq]; rfl, by rw [hq]; rfl, ?_⟩
    intro k' hk'
    simp [alookup_upsert_other _ _ _ _ _ hk']
  · intro hv
    exact processEntry_free_empty acc k v hk hv
  · by_cases hv : entryVal v = ""
    · rw [processEntry_free_empty acc k v hk hv]
    · rw [processEntry_free_text acc k v hk hv]

/-- Witness for C6: a non-empty free-text answer under `community_free`. -/
theorem claim6_free_text_witness :
    strEndsWith ("community_free") ("_free") = true ∧
      entryVal (Json.jstr ("Great year")) ≠ "" ∧
      (ftOf (processEntry ⟨[], []⟩ ("community_free") (Json.jstr ("Great year")))
          ("community_free")).allNA
        = (ftOf ⟨[], []⟩ ("community_free")).allNA ++ [entryVal (Json.jstr ("Great year"))] :=
  ⟨by decide, by decide,
    ((claim6_free_text ⟨[], []⟩ ("community_free") (Json.jstr ("Great year"))
        (by decide)).1 (by decide)).2.1⟩

/-- C9: a summary request leaves the stored submission rows exactly as
they were — `buildSummary` only runs the idempotent schema DDL and a
SELECT. -/
theorem claim9_summary_pure (sid : String) (st : ServerState) :
    (buildSummaryRun sid st).2.subs = st.subs := rfl

/-- C10: every question entry in a summary satisfies responses ≥ 1, the
histogram total equals responses, average = sum / responses, and the
average lies in [1,5]; no zero-response entry appears. -/
theorem claim10_summary_invariants (sid : String) (subs : List Submission) (k : String) (qs : QStatOut)
    (h : alookup (buildSummary sid subs).questions k = some qs) :
    1 ≤ qs.responses ∧ countsTotal qs.counts = qs.responses ∧
      qs.average = some (qs.sum / (qs.responses : ℚ)) ∧
      1 ≤ qs.sum / (qs.responses : ℚ) ∧ qs.sum / (qs.responses : ℚ) ≤ 5 := by
  obtain ⟨q0, hinv, rfl⟩ := summary_lookup_inv sid subs k qs h
  obtain ⟨hr, hc, hs1, hs2⟩ := hinv
  have hone : (1 : ℚ) ≤ (q0.responses : ℚ) := by exact_mod_cast hr
  have hpos : (0 : ℚ) < (q0.responses : ℚ) := by linarith
  have hne : q0.responses ≠ 0 := by omega
  refine ⟨hr, hc, by simp [finishQ, hne], ?_, ?_⟩
  · show (1 : ℚ) ≤ q0.sum / (q0.responses : ℚ)
    rw [le_div_iff₀ hpos]
    calc (1 : ℚ) * (q0.responses : ℚ) = (q0.responses : ℚ) := by ring
    _ ≤ q0.sum := hs1
  · show q0.sum / (q0.responses : ℚ) ≤ 5
    rw [div_le_iff₀ hpos]
    linarith

/-- Witness for C10: the summary of a single submission answering 4. -/
theorem claim10_summary_invariants_witness :
    1 ≤ (⟨⟨1, 4, [(1,0),(2,0),(3,0),(4,1),(5,0)]⟩, some 4⟩ : QStatOut).responses ∧
      countsTotal (⟨⟨1, 4, [(1,0),(2,0),(3,0),(4,1),(5,0)]⟩, some 4⟩ : QStatOut).counts
        = (⟨⟨1, 4, [(1,0),(2,0),(3,0),(4,1),(5,0)]⟩, some 4⟩ : QStatOut).responses ∧
      1 ≤ (⟨⟨1, 4, [(1,0),(2,0),(3,0),(4,1),(5,0)]⟩, some 4⟩ : QStatOut).sum
        / ((⟨⟨1, 4, [(1,0),(2,0),(3,0),(4,1),(5,0)]⟩, some 4⟩ : QStatOut).responses : ℚ) :=
  let h := claim10_summary_invariants ("s") [⟨("s"), .det ("i"), [(("q"), Json.jnum (JsNum.fin 4))]⟩]
    ("q") ⟨⟨1, 4, [(1,0),(2,0),(3,0),(4,1),(5,0)]⟩, some 4⟩ (by with_unfolding_all decide)
  ⟨h.1, h.2.1, h.2.2.2.1⟩

theorem validateEntries_none_iff (es : List (String × Json)) :
    validateEntries es = none ↔
      ∀ kv ∈ es, kv.1.length ≤ 200 ∧
        (jsTypeof kv.2 = ("string") ∨ jsTypeof kv.2 = ("number") ∨ jsTypeof kv.2 = ("boolean")) ∧
        (jsToString kv.2).length ≤ 2000 := by
  induction es with
  | nil => simp [validateEntries]
  | cons hd tl ih =>
    obtain ⟨k, v⟩ := hd
    simp only [validateEntries]
    by_cases h1 : k.length > 200
    · rw [if_pos h1]
      constructor
      · intro h
        simp at h
      · intro h
        exfalso
        have hx := (h (k, v) (by simp)).1
        dsimp only at hx
        omega
    · rw [if_neg h1]
      by_cases h2 : jsTypeof v = ("string") ∨ jsTypeof v = ("number") ∨ jsTypeof v = ("boolean")
      · rw [if_neg (not_not_intro h2)]
        by_cases h3 : (jsToString v).length > 2000
        · rw [if_pos h3]
          constructor
          · intro h
            simp at h
          · intro h
            exfalso
            have hx := (h (k, v) (by simp)).2.2
            dsimp only at hx
            omega
        · rw [if_neg h3]
          rw [ih]
          constructor
          · intro h kv hkv
            rcases List.mem_cons.mp hkv with hkv | hkv
            · subst hkv
              exact ⟨(by omega : k.length ≤ 200), h2, (by omega : (jsToString v).length ≤ 2000)⟩
            · exact h kv hkv
          · intro h kv hkv
            exact h kv (List.mem_cons_of_mem _ hkv)
      · rw [if_pos h2]
        constructor
        · intro h
          simp at h
        · intro h
          exact absurd (h (k, v) (by simp)).2.1 h2

/-- C7: validation accepts exactly the flat non-null non-array objects of
at most 1000 keys whose keys have at most 200 characters and whose values
are strings, numbers or booleans serializing to at most 2000 characters;
any other body is rejected with the 400 `invalid_payload` response before
anything touches the store, which is left unchanged. -/
theorem claim7_validation (p : Json) :
    (validatePayload p = none ↔ PayloadAccepted p) ∧
      (∀ (cfg : Config) (st : ServerState) (ip : String) (n : Nat) (w : WebhookOutcome),
        validatePayload p ≠ none →
          (∃ msg, (submit cfg st ip n p w).1 = SubmitResult.invalidPayload msg) ∧
            (submit cfg st ip n p w).2.1 = st) := by
  constructor
  · cases p with
    | jobj es =>
      simp only [validatePayload]
      by_cases hlen : es.length > 1000
      · rw [if_pos hlen]
        constructor
        · intro h
          simp at h
        · rintro ⟨es', heq, hlen', hall⟩
          injection heq with heq
          subst heq
          omega
      · rw [if_neg hlen]
        rw [validateEntries_none_iff]
        constructor
        · intro h
          exact ⟨es, rfl, by omega, h⟩
        · rintro ⟨es', heq, hlen', hall⟩
          injection heq with heq
          subst heq
          exact hall
    | jnull =>
      simp [validatePayload, PayloadAccepted]
    | jbool b =>
      simp [validatePayload, PayloadAccepted]
    | jnum nv =>
      simp [validatePayload, PayloadAccepted]
    | jstr s =>
      simp [validatePayload, PayloadAccepted]
    | jarr l =>
      simp [validatePayload, PayloadAccepted]
  · intro cfg st ip n w hne
    cases hv : validatePayload p with
    | none => exact absurd hv hne
    | some msg =>
      exact ⟨⟨msg, by simp [submit, hv]⟩, by simp [submit, hv]⟩

/-- Witness for C7: an array body is rejected with 400 and the store stays
as it was. -/
theorem claim7_validation_witness :
    validatePayload (Json.jarr []) ≠ none ∧
      (∃ msg, (submit ⟨("s"), [], ("")⟩ ⟨false, []⟩ ("1.2.3.4") 0 (Json.jarr [])
          (WebhookOutcome.failure ("boom"))).1 = SubmitResult.invalidPayload msg) ∧
      (submit ⟨("s"), [], ("")⟩ ⟨false, []⟩ ("1.2.3.4") 0 (Json.jarr [])
          (WebhookOutcome.failure ("boom"))).2.1 = ⟨false, []⟩ :=
  ⟨by decide,
    ((claim7_validation (Json.jarr [])).2 ⟨("s"), [], ("")⟩ ⟨false, []⟩ ("1.2.3.4") 0
        (WebhookOutcome.failure ("boom")) (by decide)).1,
    ((claim7_validation (Json.jarr [])).2 ⟨("s"), [], ("")⟩ ⟨false, []⟩ ("1.2.3.4") 0
        (WebhookOutcome.failure ("boom")) (by decide)).2⟩

/-- C8: the response and the resulting store of an accepted submission do
not depend on the outcome of the fire-and-forget webhook call — success,
HTTP error or exception all leave the caller's 200 response and the
inserted row identical; the outcome only reaches the console log. -/
theorem claim8_webhook_isolation (cfg : Config) (st : ServerState) (ip : String) (n : Nat)
    (b : Json) (w w' : WebhookOutcome) (h : (submit cfg st ip n b w).1 = SubmitResult.ok) :
    (submit cfg st ip n b w').1 = SubmitResult.ok ∧
      (submit cfg st ip n b w').2.1 = (submit cfg st ip n b w).2.1 := by
  obtain ⟨hfst, hsnd⟩ := submit_webhook_indep cfg st ip n b w w'
  exact ⟨hfst ▸ h, hsnd.symm⟩

/-- Witness for C8: a successful submission compared against a failing
webhook outcome. -/
theorem claim8_webhook_isolation_witness :
    (submit ⟨("s"), [], ("x")⟩ ⟨false, []⟩ ("1.2.3.4") 0 (Json.jobj [(("a"), Json.jstr ("1"))])
        (WebhookOutcome.success ("ok"))).1 = SubmitResult.ok ∧
      (submit ⟨("s"), [], ("x")⟩ ⟨false, []⟩ ("1.2.3.4") 0 (Json.jobj [(("a"), Json.jstr ("1"))])
          (WebhookOutcome.failure ("boom"))).1 = SubmitResult.ok :=
  ⟨by decide,
    (claim8_webhook_isolation ⟨("s"), [], ("x")⟩ ⟨false, []⟩ ("1.2.3.4") 0
        (Json.jobj [(("a"), Json.jstr ("1"))]) (WebhookOutcome.success ("ok"))
        (WebhookOutcome.failure ("boom")) (by decide)).1⟩

/-- C4: for a non-whitelisted address the hash is a deterministic function
of the address alone, so a second submission from the same address to the
same survey hits the (survey_id, ip_hash) uniqueness constraint and is
answered with the 403 `duplicate_ip` conflict (not a server error),
adding no row; for whitelisted addresses the hash mixes in fresh
per-request entropy, so two requests with distinct entropy never share a
hash and a whitelisted submission with fresh entropy is never blocked by
dedup. -/
theorem claim4_dedup :
    (∀ (ip : String) (n n' : Nat), makeIpHash ip false n = makeIpHash ip false n') ∧
      (∀ (ip ip' : String) (n n' : Nat), n ≠ n' →
        makeIpHash ip true n ≠ makeIpHash ip' true n') ∧
      (∀ (cfg : Config) (st : ServerState) (ip : String) (n1 n2 : Nat)
          (b1 b2 : Json) (w1 w2 : WebhookOutcome),
        isIpWhitelisted cfg.whitelistPrefixes ip = false →
        (submit cfg st ip n1 b1 w1).1 = SubmitResult.ok →
        validatePayload b2 = none →
        (submit cfg (submit cfg st ip n1 b1 w1).2.1 ip n2 b2 w2).1 = SubmitResult.duplicateIp ∧
          (submit cfg (submit cfg st ip n1 b1 w1).2.1 ip n2 b2 w2).1 ≠ SubmitResult.serverError ∧
          (submit cfg (submit cfg st ip n1 b1 w1).2.1 ip n2 b2 w2).2.1.subs
            = (submit cfg st ip n1 b1 w1).2.1.subs) ∧
      (∀ (cfg : Config) (st : ServerState) (ip : String) (n : Nat)
          (b : Json) (w : WebhookOutcome),
        isIpWhitelisted cfg.whitelistPrefixes ip = true →
        validatePayload b = none →
        (∀ s ∈ st.subs, s.ip_hash ≠ makeIpHash ip true n) →
        (submit cfg st ip n b w).1 = SubmitResult.ok) := by
  refine ⟨?_, ?_, ?_, ?_⟩
  · intro ip n n'
    rfl
  · intro ip ip' n n' hnn heq
    simp [makeIpHash] at heq
    exact hnn heq.2
  · intro cfg st ip n1 n2 b1 b2 w1 w2 hwl hok hval2
    obtain ⟨hval1, hsubs⟩ := submit_ok_state cfg st ip n1 b1 w1 hok
    set st1 := (submit cfg st ip n1 b1 w1).2.1 with hst1
    have hhash : makeIpHash ip (isIpWhitelisted cfg.whitelistPrefixes ip) n2
        = makeIpHash ip (isIpWhitelisted cfg.whitelistPrefixes ip) n1 := by
      rw [hwl]
      rfl
    have hmem : Submission.mk cfg.surveyId
        (makeIpHash ip (isIpWhitelisted cfg.whitelistPrefixes ip) n1) (bodyEntries b1)
        ∈ st1.subs := by
      rw [hsubs]
      simp
    have hdup := insertSubmission_dup
      (ServerState.mk true st1.subs)
      (Submission.mk cfg.surveyId
        (makeIpHash ip (isIpWhitelisted cfg.whitelistPrefixes ip) n2) (bodyEntries b2))
      (Submission.mk cfg.surveyId
        (makeIpHash ip (isIpWhitelisted cfg.whitelistPrefixes ip) n1) (bodyEntries b1))
      hmem ⟨rfl, hhash.symm⟩
    refine ⟨?_, ?_, ?_⟩
    · simp [submit, hval2, hdup]
    · simp [submit, hval2, hdup]
    · simp [submit, hval2, hdup]
  · intro cfg st ip n b w hwl hval hfresh
    have hins := insertSubmission_not_dup (ServerState.mk true st.subs)
      (Submission.mk cfg.surveyId
        (makeIpHash ip (isIpWhitelisted cfg.whitelistPrefixes ip) n) (bodyEntries b))
      (by
        intro s hs hcontra
        rw [hwl] at hcontra
        exact hfresh s hs hcontra.2)
    simp [submit, hval, hins]

/-- Witness for C4: a non-whitelisted address submitting twice is rejected
the second time, and a whitelisted address with fresh entropy goes
through. -/
theorem claim4_dedup_witness :
    isIpWhitelisted [("10.")] ("1.2.3.4") = false ∧
      (submit ⟨("s"), [("10.")], ("")⟩ ⟨false, []⟩ ("1.2.3.4") 0
          (Json.jobj [(("a"), Json.jstr ("1"))]) (WebhookOutcome.success ("t"))).1
        = SubmitResult.ok ∧
      (submit ⟨("s"), [("10.")], ("")⟩
          (submit ⟨("s"), [("10.")], ("")⟩ ⟨false, []⟩ ("1.2.3.4") 0
            (Json.jobj [(("a"), Json.jstr ("1"))]) (WebhookOutcome.success ("t"))).2.1
          ("1.2.3.4") 1 (Json.jobj [(("a"), Json.jstr ("2"))]) (WebhookOutcome.success ("t"))).1
        = SubmitResult.duplicateIp ∧
      isIpWhitelisted [("10.")] ("10.0.0.7") = true ∧
      makeIpHash ("10.0.0.7") true 0 ≠ makeIpHash ("10.0.0.7") true 1 ∧
      (submit ⟨("s"), [("10.")], ("")⟩ ⟨false, []⟩ ("10.0.0.7") 0
          (Json.jobj [(("a"), Json.jstr ("1"))]) (WebhookOutcome.success ("t"))).1
        = SubmitResult.ok :=
  ⟨by decide, by decide,
    ((claim4_dedup.2.2.1 ⟨("s"), [("10.")], ("")⟩ ⟨false, []⟩ ("1.2.3.4") 0 1
        (Json.jobj [(("a"), Json.jstr ("1"))]) (Json.jobj [(("a"), Json.jstr ("2"))])
        (WebhookOutcome.success ("t")) (WebhookOutcome.success ("t"))
        (by decide) (by decide) (by decide))).1,
    by decide,
    claim4_dedup.2.1 ("10.0.0.7") ("10.0.0.7") 0 1 (by decide),
    claim4_dedup.2.2.2 ⟨("s"), [("10.")], ("")⟩ ⟨false, []⟩ ("10.0.0.7") 0
      (Json.jobj [(("a"), Json.jstr ("1"))]) (WebhookOutcome.success ("t"))
      (by decide) (by decide) (by intro s hs; simp at hs)⟩
